import Mathlib

/-!
# A verification model of the test-run progress tracker

This file gives a shallow embedding, in Lean, of the core of the
`replit-test-framework` repository: the `TestRunner` persistence tracker
(`test-runner.ts`) and the category-by-category execution driver
`runTestSuite` together with its output parser `parseAndUpdateTestCounts`
(`src/core/base-setup.ts`).  Pure computations are translated as Lean
functions; the database and the external tool are modelled by explicit
state values and by injected success/failure outcomes; the vitest output
regexes are translated into executable character-list matchers that follow
the greedy/lazy backtracking order of the JS regex engine.
-/

namespace TestFramework

/-- JS whitespace as used by `\s` and `String.prototype.trim`, restricted to
the ASCII whitespace characters that occur in tool output. -/
def isWS (c : Char) : Bool :=
  c = ' ' || c = '\t' || c = '\n' || c = '\r' || c = '\x0b' || c = '\x0c'

/-- JS string trim: drop leading and trailing whitespace. -/
def trimChars (l : List Char) : List Char :=
  ((l.dropWhile isWS).reverse.dropWhile isWS).reverse

/-- Numeric value of a `\d+` capture, as computed by `parseInt`. -/
def digitsToNat (l : List Char) : Nat :=
  l.foldl (fun n c => 10 * n + (c.toNat - '0'.toNat)) 0

/-- The regex fragment `\s+(\d+)ms$` matched against `rest`, returning the
digit capture.  A greedy `\s+`, then a greedy `\d+`, then the literal `ms`
at the end of input: giving back characters from either greedy run would
put a whitespace character in front of `\d` or a digit in front of the
literal `m`, so no backtracking inside this fragment can succeed and the
match is deterministic. -/
def matchWsDigitsMs (rest : List Char) : Option (List Char) :=
  let ws := rest.takeWhile isWS
  if ws.isEmpty then none
  else
    let r1 := rest.dropWhile isWS
    let d := r1.takeWhile Char.isDigit
    if d.isEmpty then none
    else if r1.dropWhile Char.isDigit = ['m', 's'] then some d
    else none

/-- The lazy group `(.+?)` followed by `\s+(\d+)ms$`: the group takes one
character, tries the continuation, and grows by one character on failure.
Returns the label capture and the digit capture. -/
def lazyScan (acc : List Char) : List Char → Option (List Char × List Char)
  | [] => none
  | c :: rest =>
    match matchWsDigitsMs rest with
    | some d => some (acc ++ [c], d)
    | none => lazyScan (acc ++ [c]) rest

/-- The tail `\s+(.+?)\s+(\d+)ms$` of the pass/fail regexes
(`/^✓\s+(.+?)\s+(\d+)ms$/`, `/^✗\s+(.+?)\s+(\d+)ms$/`) matched against the
text after the marker character.  The leading greedy `\s+` first takes the
maximal whitespace run and gives characters back to the lazy group only
when no continuation succeeds, which is the backtracking order of the JS
regex engine. -/
def matchMarkerTail (rest : List Char) : Option (List Char × List Char) :=
  go (rest.takeWhile isWS).length
where
  go : Nat → Option (List Char × List Char)
    | 0 => none
    | k + 1 =>
      match lazyScan [] (rest.drop (k + 1)) with
      | some r => some r
      | none => go k

/-- The tail `\s+(.+)$` of the skip regex `/^↓\s+(.+)$/` matched against the
text after the marker.  The greedy `\s+` takes the maximal whitespace run;
if nothing is left for `(.+)` it gives back one whitespace character. -/
def matchSkipTail (rest : List Char) : Option (List Char) :=
  let w := (rest.takeWhile isWS).length
  if w = 0 then none
  else if !(rest.drop w).isEmpty then some (rest.drop w)
  else if 2 ≤ w then some (rest.drop (w - 1))
  else none

/-- Status values of the `TestResult` interface from `test-runner.ts`. -/
inductive TCStatus
  | passed
  | failed
  | skipped
deriving DecidableEq

/-- The `TestResult` interface from `test-runner.ts`. -/
structure TestResult where
  suite : String
  name : String
  status : TCStatus
  duration : Nat
  error : Option String := none
  stackTrace : Option String := none
deriving DecidableEq

/-- JS split of a label on the three-character separator space-gt-space: split on the literal separator, left to right,
non-overlapping. -/
def splitArrowGo (acc : List Char) : List Char → List (List Char)
  | ' ' :: '>' :: ' ' :: rest => acc :: splitArrowGo [] rest
  | c :: rest => splitArrowGo (acc ++ [c]) rest
  | [] => [acc]

/-- JS split of the output on newline characters. -/
def splitLinesGo (acc : List Char) : List Char → List (List Char)
  | [] => [acc]
  | c :: rest =>
    if c = '\n' then acc :: splitLinesGo [] rest
    else splitLinesGo (acc ++ [c]) rest

/-- JS join of the parts with the three-character separator. -/
def joinArrow : List (List Char) → List Char
  | [] => []
  | [x] => x
  | x :: xs => x ++ ' ' :: '>' :: ' ' :: joinArrow xs

/-- The suite/name split applied to a captured label:
`parts = label.split(sep); suite = parts[0] || unknown;
name = parts.slice(1).join(sep) || label` with `sep` the space-gt-space separator. -/
def mkSuiteName (label : List Char) : String × String :=
  let parts := splitArrowGo [] label
  let fst := parts.headD []
  let suite : String := if fst.isEmpty then "unknown" else ⟨fst⟩
  let joined := joinArrow (parts.drop 1)
  let name : String := if joined.isEmpty then ⟨label⟩ else ⟨joined⟩
  (suite, name)

/-- The per-category counters `filePassed` / `fileFailed` / `fileTotal` of
`parseAndUpdateTestCounts`. -/
structure FileCounts where
  passed : Nat
  failed : Nat
  total : Nat
deriving DecidableEq

/-- The body of the per-line loop of `parseAndUpdateTestCounts`: trim the
line, branch on the marker the trimmed line starts with, bump the counters,
and push a `TestResult` only when the regex of the marker matches. -/
def parseLineStep (st : FileCounts × List TestResult) (line : List Char) :
    FileCounts × List TestResult :=
  let c := st.1
  let results := st.2
  match trimChars line with
  | [] => st
  | m :: rest =>
    if m = '✓' then
      let c2 : FileCounts := { c with passed := c.passed + 1, total := c.total + 1 }
      match matchMarkerTail rest with
      | some (label, digits) =>
        let sn := mkSuiteName label
        (c2, results ++ [{ suite := sn.1, name := sn.2, status := TCStatus.passed,
                           duration := digitsToNat digits }])
      | none => (c2, results)
    else if m = '✗' then
      let c2 : FileCounts := { c with failed := c.failed + 1, total := c.total + 1 }
      match matchMarkerTail rest with
      | some (label, digits) =>
        let sn := mkSuiteName label
        (c2, results ++ [{ suite := sn.1, name := sn.2, status := TCStatus.failed,
                           duration := digitsToNat digits,
                           error := some ("Test failed - check logs for details") }])
      | none => (c2, results)
    else if m = '↓' then
      let c2 : FileCounts := { c with total := c.total + 1 }
      match matchSkipTail rest with
      | some label =>
        let sn := mkSuiteName label
        (c2, results ++ [{ suite := sn.1, name := sn.2, status := TCStatus.skipped,
                           duration := 0 }])
      | none => (c2, results)
    else st

/-- Model of `parseAndUpdateTestCounts` from `src/core/base-setup.ts`: split the tool
output on newlines and fold the per-line loop over the lines.  The source
mutates the `testResults` array by `push`; here the updated list is
returned alongside the counters.  The `testRunner` parameter of the source
is unused in its body and omitted. -/
def parseAndUpdateTestCounts (output : String) (testResults : List TestResult) :
    FileCounts × List TestResult :=
  (splitLinesGo [] output.data).foldl parseLineStep
    ({ passed := 0, failed := 0, total := 0 }, testResults)

/-- The `currentPhase` tags, `backend` or `frontend`. -/
inductive Phase
  | backend
  | frontend
deriving DecidableEq

/-- The status type of `TestRunResult` (`passed` or `failed`) from
`test-runner.ts`. -/
inductive TRStatus
  | passed
  | failed
deriving DecidableEq

/-- The `TestRunResult` interface from `test-runner.ts`. -/
structure TestRunResult where
  status : TRStatus
  totalTests : Nat
  passedTests : Nat
  failedTests : Nat
  duration : Nat
  tests : List TestResult
  errorSummary : Option String
deriving DecidableEq

/-- One entry of the `testCategories` array in `runTestSuite`. -/
structure Category where
  pattern : String
  phase : Phase
  name : String

/-- The fixed ordered category list from `runTestSuite`. -/
def testCategories : List Category :=
  [ { pattern := "tests/integration/", phase := Phase.backend, name := "Integration Tests" },
    { pattern := "tests/auth/", phase := Phase.backend, name := "Authentication Tests" },
    { pattern := "tests/storage/", phase := Phase.backend, name := "Storage Tests" },
    { pattern := "tests/api/", phase := Phase.backend, name := "API Tests" },
    { pattern := "tests/components/", phase := Phase.frontend, name := "Component Tests" },
    { pattern := "tests/pages/", phase := Phase.frontend, name := "Page Tests" },
    { pattern := "tests/e2e/", phase := Phase.frontend, name := "End-to-End Tests" } ]

/-- JS `file.startsWith(pattern)`. -/
def strStartsWith (s p : String) : Bool :=
  p.data.isPrefixOf s.data

/-- Model of the filter `allTestFiles.filter(file => file.startsWith(category.pattern))`. -/
def catFiles (allTestFiles : List String) (c : Category) : List String :=
  allTestFiles.filter (fun f => strStartsWith f c.pattern)

/-- Outcome of one `execSync` invocation of `npx vitest run <pattern>`: `ok output` on exit 0; `err output` on a non-zero exit, where
`output` models `error.stdout || error.stderr ||` empty, the text recovered
from the thrown error and fed to the same parser. -/
inductive ToolOutcome
  | ok (output : String)
  | err (output : String)

/-- The text that reaches `parseAndUpdateTestCounts` in either branch. -/
def ToolOutcome.text : ToolOutcome → String
  | .ok o => o
  | .err o => o

/-- One call made by the executor against the `TestRunner` interface, in
program order. -/
inductive TrackerCall
  | start (commitHash : String) (branch : String) (totalFiles : Nat)
  | fileProgress (currentFile : String) (completedFiles : Nat) (phase : Phase)
      (totalFiles : Nat)
  | testCounts (passedTests failedTests totalTests : Nat)
  | complete (result : TestRunResult)
deriving DecidableEq

/-- The local accumulator variables of the executor (`completedFiles`,
`totalPassed`, `totalFailed`, `totalTests`, `allTestResults`) together with
the trace of `TestRunner` calls issued so far. -/
structure ExecState where
  completedFiles : Nat
  totalPassed : Nat
  totalFailed : Nat
  totalTests : Nat
  allTestResults : List TestResult
  calls : List TrackerCall
deriving DecidableEq

/-- The body of the `for (const category of testCategories)` loop: skip the
category when no discovered file matches its path prefix; otherwise report
progress, invoke the tool, parse its output (from either the success or the
error branch), accumulate counts and results, advance `completedFiles`, and
report the updated counts and progress.  The two branches differ only in
the label of the trailing progress call. -/
def processCategory (allTestFiles : List String) (tool : String → ToolOutcome)
    (totalFiles : Nat) (st : ExecState) (c : Category) : ExecState :=
  let categoryFiles := catFiles allTestFiles c
  if categoryFiles.length = 0 then st
  else
    let outcome := tool c.pattern
    let parsed := parseAndUpdateTestCounts outcome.text []
    let totalPassed := st.totalPassed + parsed.1.passed
    let totalFailed := st.totalFailed + parsed.1.failed
    let totalTests := st.totalTests + parsed.1.total
    let completedFiles := st.completedFiles + categoryFiles.length
    let doneLabel :=
      match outcome with
      | .ok _ => "Completed " ++ c.name
      | .err _ => "Completed " ++ c.name ++ " (with errors)"
    { completedFiles := completedFiles
      totalPassed := totalPassed
      totalFailed := totalFailed
      totalTests := totalTests
      allTestResults := st.allTestResults ++ parsed.2
      calls := st.calls ++
        [ TrackerCall.fileProgress c.name st.completedFiles c.phase totalFiles,
          TrackerCall.testCounts totalPassed totalFailed totalTests,
          TrackerCall.fileProgress doneLabel completedFiles c.phase totalFiles ] }

/-- The category loop. -/
def runCats (allTestFiles : List String) (tool : String → ToolOutcome)
    (totalFiles : Nat) : List Category → ExecState → ExecState
  | [], st => st
  | c :: cs, st =>
    runCats allTestFiles tool totalFiles cs
      (processCategory allTestFiles tool totalFiles st c)

/-- The `finalResult` object built after the category loop. -/
def finalResult (st : ExecState) : TestRunResult :=
  { status := if st.totalFailed = 0 then TRStatus.passed else TRStatus.failed
    totalTests := st.totalTests
    passedTests := st.totalPassed
    failedTests := st.totalFailed
    duration := 0
    tests := st.allTestResults
    errorSummary :=
      if st.totalFailed > 0 then some (toString st.totalFailed ++ " test(s) failed")
      else none }

/-- Executor state after the category loop, starting from the zeroed
accumulators and the initial `startTestRun` call. -/
def execFinalState (allTestFiles : List String) (tool : String → ToolOutcome) :
    ExecState :=
  runCats allTestFiles tool allTestFiles.length testCategories
    { completedFiles := 0, totalPassed := 0, totalFailed := 0, totalTests := 0,
      allTestResults := [],
      calls := [TrackerCall.start ("HEAD") ("main") allTestFiles.length] }

/-- The final result handed to `completeTestRun` on the normal path. -/
def finalResultOf (allTestFiles : List String) (tool : String → ToolOutcome) :
    TestRunResult :=
  finalResult (execFinalState allTestFiles tool)

/-- Model of `runTestSuite` from `src/core/base-setup.ts`.  Here `discovery` models the
`execSync` file-discovery call: `ok` carries the discovered test files,
`error` carries the message of a thrown exception.  The result is the
ordered list of `TestRunner` calls issued, paired with the re-raised error
message, if any.  When discovery throws, the top-level catch builds a
zeroed failed result, hands it to `completeTestRun`, and re-raises. -/
def runTestSuite (discovery : Except String (List String))
    (tool : String → ToolOutcome) : List TrackerCall × Option String :=
  match discovery with
  | .error msg =>
    ([TrackerCall.complete
        { status := TRStatus.failed, totalTests := 0, passedTests := 0,
          failedTests := 0, duration := 0, tests := [],
          errorSummary := some ("Test execution failed: " ++ msg) }],
     some msg)
  | .ok allTestFiles =>
    let st := execFinalState allTestFiles tool
    (st.calls ++ [TrackerCall.complete (finalResult st)], none)

/-- Per-category counts as seen by the executor: the counters returned by
`parseAndUpdateTestCounts` on the text of the tool outcome of this category. -/
def catStats (tool : String → ToolOutcome) (c : Category) : FileCounts :=
  (parseAndUpdateTestCounts (tool c.pattern).text []).1

/-- Per-category parsed test results. -/
def catResults (tool : String → ToolOutcome) (c : Category) : List TestResult :=
  (parseAndUpdateTestCounts (tool c.pattern).text []).2

/-- Sum of `f` over the categories the executor actually processes (those
with at least one matching discovered file). -/
def sumBy (allTestFiles : List String) (f : Category → Nat) :
    List Category → Nat
  | [] => 0
  | c :: cs =>
    (if (catFiles allTestFiles c).length = 0 then 0 else f c) +
      sumBy allTestFiles f cs

/-- Concatenation of parsed results over the processed categories. -/
def resultsBy (allTestFiles : List String) (tool : String → ToolOutcome) :
    List Category → List TestResult
  | [] => []
  | c :: cs =>
    (if (catFiles allTestFiles c).length = 0 then [] else catResults tool c) ++
      resultsBy allTestFiles tool cs

/-- Persisted `Run` status: `running` at creation, later a terminal value. -/
inductive RunStatus
  | running
  | passed
  | failed
deriving DecidableEq

/-- The value written into the status column of the run row by `completeTestRun`. -/
def TRStatus.toRunStatus : TRStatus → RunStatus
  | .passed => RunStatus.passed
  | .failed => RunStatus.failed

/-- One row of the `testRuns` table, with the columns touched by the
tracker.  Nullable columns are `Option`s. -/
structure RunRow where
  commitHash : Option String
  branch : String
  status : RunStatus
  startedAt : Nat
  totalFiles : Nat
  completedFiles : Nat
  currentFile : Option String
  currentPhase : Option Phase
  totalTests : Nat
  passedTests : Nat
  failedTests : Nat
  duration : Option Nat := none
  completedAt : Option Nat := none
  errorSummary : Option String := none
deriving DecidableEq

/-- One row of the `testCases` table. -/
structure TestCaseRow where
  testRunId : Nat
  testSuite : String
  testName : String
  status : TCStatus
  duration : Nat
  errorMessage : Option String
  stackTrace : Option String
deriving DecidableEq

/-- The persistence store: run rows keyed by identifier, test-case rows,
and the next identifier the insert will assign. -/
structure DB where
  runs : List (Nat × RunRow)
  cases : List TestCaseRow
  nextId : Nat
deriving DecidableEq

/-- The `TestRunner` instance fields `testRunId` and `startTime`. -/
structure RunnerState where
  testRunId : Option Nat
  startTime : Nat
deriving DecidableEq

/-- Model of `db.update(...).set(f).where(id)`: apply `f` to the row with the given
identifier. -/
def dbUpdateRun (db : DB) (id : Nat) (f : RunRow → RunRow) : DB :=
  { db with runs := db.runs.map (fun p => if p.1 = id then (p.1, f p.2) else p) }

/-- Model of a select by identifier: the run row with the given identifier. -/
def dbFindRun (db : DB) (id : Nat) : Option RunRow :=
  (db.runs.find? (fun p => p.1 = id)).map (fun p => p.2)

/-- Model of `startTestRun(commitHash?, branch = "main", totalFiles = 0)` from
`test-runner.ts`: records `startTime`, inserts one new run row with
status `running`, `startedAt` now, zero counters, `currentFile` null and
`currentPhase` set to `backend`, stores the returned identifier as the active
context, and returns it.  `now` models `Date.now()` / `new Date()`. -/
def startTestRun (_st : RunnerState) (db : DB) (now : Nat)
    (commitHash : Option String) (branch : String := "main")
    (totalFiles : Nat := 0) : RunnerState × DB × Nat :=
  let row : RunRow :=
    { commitHash := commitHash, branch := branch, status := RunStatus.running,
      startedAt := now, totalFiles := totalFiles, completedFiles := 0,
      currentFile := none, currentPhase := some Phase.backend,
      totalTests := 0, passedTests := 0, failedTests := 0 }
  ({ testRunId := some db.nextId, startTime := now },
   { runs := db.runs ++ [(db.nextId, row)], cases := db.cases,
     nextId := db.nextId + 1 },
   db.nextId)

/-- What one bounded-retry operation did: how many attempts it made, the
backoff waits (ms) it performed between attempts, and whether it ended in
the final give-up warning.  No path ever raises: the catch in the source
swallows every error. -/
structure RetryTrace where
  attemptsMade : Nat
  waits : List Nat
  finalWarning : Bool
deriving DecidableEq

/-- The `retryOperation` closure shared by `updateFileProgress` and
`updateTestCounts`: `for (let i = 0; i < attempts; i++)` try the write; on
success return; on the last attempt warn and give up; otherwise warn and
wait `1000 * (i + 1)` ms.  `ok i` injects whether the i-th write attempt
succeeds; `apply` is the write itself.  `fuel` counts the remaining
iterations, so the last attempt is `fuel = 0` after unpacking. -/
def retryGo (apply : DB → DB) (ok : Nat → Bool) :
    Nat → Nat → DB → DB × RetryTrace
  | _, 0, db => (db, { attemptsMade := 0, waits := [], finalWarning := false })
  | i, fuel + 1, db =>
    if ok i then
      (apply db, { attemptsMade := 1, waits := [], finalWarning := false })
    else if fuel = 0 then
      (db, { attemptsMade := 1, waits := [], finalWarning := true })
    else
      let r := retryGo apply ok (i + 1) fuel db
      (r.1,
       { attemptsMade := r.2.attemptsMade + 1,
         waits := 1000 * (i + 1) :: r.2.waits,
         finalWarning := r.2.finalWarning })

/-- Model of `retryOperation(attempts = 3)`. -/
def retryOperation (apply : DB → DB) (ok : Nat → Bool) (db : DB)
    (attempts : Nat := 3) : DB × RetryTrace :=
  retryGo apply ok 0 attempts db

/-- Trace of one `updateFileProgress` / `updateTestCounts` call. -/
structure OpTrace where
  warnedNoRun : Bool
  attemptsMade : Nat
  waits : List Nat
  finalWarning : Bool
  raised : Bool
deriving DecidableEq

/-- Wrap a retry outcome into an operation trace; every exit of the source
returns normally, so `raised` is always false. -/
def RetryTrace.toOp (r : RetryTrace) : OpTrace :=
  { warnedNoRun := false, attemptsMade := r.attemptsMade, waits := r.waits,
    finalWarning := r.finalWarning, raised := false }

/-- The trace of the no-active-run early return: warn and do nothing. -/
def noRunTrace : OpTrace :=
  { warnedNoRun := true, attemptsMade := 0, waits := [], finalWarning := false,
    raised := false }

/-- Model of `updateFileProgress(currentFile, completedFiles, currentPhase,
totalFiles = 45)` from `test-runner.ts`: warn and no-op without an active
run; otherwise update the progress columns of the active row under the
bounded retry. -/
def updateFileProgress (st : RunnerState) (db : DB) (ok : Nat → Bool)
    (currentFile : String) (completedFiles : Nat) (currentPhase : Phase)
    (totalFiles : Nat := 45) : DB × OpTrace :=
  match st.testRunId with
  | none => (db, noRunTrace)
  | some id =>
    let r := retryOperation
      (fun db => dbUpdateRun db id (fun row =>
        { row with
            currentFile := some currentFile
            completedFiles := completedFiles
            currentPhase := some currentPhase
            totalFiles := totalFiles }))
      ok db
    (r.1, r.2.toOp)

/-- Model of `updateTestCounts(passedTests, failedTests, totalTests)` from
`test-runner.ts`: same guard and bounded retry, updating the counter
columns. -/
def updateTestCounts (st : RunnerState) (db : DB) (ok : Nat → Bool)
    (passedTests failedTests totalTests : Nat) : DB × OpTrace :=
  match st.testRunId with
  | none => (db, noRunTrace)
  | some id =>
    let r := retryOperation
      (fun db => dbUpdateRun db id (fun row =>
        { row with
            totalTests := totalTests
            passedTests := passedTests
            failedTests := failedTests }))
      ok db
    (r.1, r.2.toOp)

/-- Trace of one `completeTestRun` call. -/
structure CompleteTrace where
  warnedNoRun : Bool
  updated : Bool
  insertedCases : Nat
  loggedError : Bool
  raised : Bool
deriving DecidableEq

/-- The test-case rows bulk-inserted for a result. -/
def caseRows (id : Nat) (tests : List TestResult) : List TestCaseRow :=
  tests.map (fun t =>
    { testRunId := id, testSuite := t.suite, testName := t.name,
      status := t.status, duration := t.duration, errorMessage := t.error,
      stackTrace := t.stackTrace })

/-- The single field set written by the terminal update of `completeTestRun`:
status, counters, duration, `completedAt` and `errorSummary`. -/
def terminalUpdate (result : TestRunResult) (duration now : Nat)
    (row : RunRow) : RunRow :=
  { row with
      status := result.status.toRunStatus
      totalTests := result.totalTests
      passedTests := result.passedTests
      failedTests := result.failedTests
      duration := some duration
      completedAt := some now
      errorSummary := result.errorSummary }

/-- Model of `completeTestRun(result)` from `test-runner.ts`: warn and no-op without
an active run; otherwise compute `duration = now - startTime` and, inside
one try/catch, update the status, counters, duration,
`completedAt` and `errorSummary` of the active row, then bulk-insert one test-case row per
entry of `result.tests` when that list is non-empty.  A failure anywhere is
logged and swallowed; nothing is retried; the active run id is never
cleared.  `updateOk` / `insertOk` inject the persistence outcomes of the
update and of the bulk insert. -/
def completeTestRun (st : RunnerState) (db : DB) (now : Nat)
    (result : TestRunResult) (updateOk insertOk : Bool) :
    RunnerState × DB × CompleteTrace :=
  match st.testRunId with
  | none =>
    (st, db, { warnedNoRun := true, updated := false, insertedCases := 0,
               loggedError := false, raised := false })
  | some id =>
    let duration := now - st.startTime
    if !updateOk then
      (st, db, { warnedNoRun := false, updated := false, insertedCases := 0,
                 loggedError := true, raised := false })
    else
      let db1 := dbUpdateRun db id (terminalUpdate result duration now)
      if result.tests.length > 0 then
        if insertOk then
          (st, { db1 with cases := db1.cases ++ caseRows id result.tests },
           { warnedNoRun := false, updated := true,
             insertedCases := result.tests.length, loggedError := false,
             raised := false })
        else
          (st, db1, { warnedNoRun := false, updated := true, insertedCases := 0,
                      loggedError := true, raised := false })
      else
        (st, db1, { warnedNoRun := false, updated := true, insertedCases := 0,
                    loggedError := false, raised := false })

/-! ## Specification-side definitions used by the theorems -/

/-- No file path can start with both of two patterns when neither pattern
is a prefix of the other. -/
def patDisjoint (c d : Category) : Prop :=
  ∀ f : String, ¬(strStartsWith f c.pattern = true ∧ strStartsWith f d.pattern = true)

/-- Executable pairwise check that no pattern is a prefix of another. -/
def pairwisePrefixFree : List Category → Bool
  | [] => true
  | c :: cs =>
    cs.all (fun d => !(c.pattern.data.isPrefixOf d.pattern.data) &&
                     !(d.pattern.data.isPrefixOf c.pattern.data)) &&
    pairwisePrefixFree cs

/-- Total number of file matches over a category list (without the
skip-empty guard; a skipped category contributes `0` either way). -/
def sumCatLens (files : List String) : List Category → Nat
  | [] => 0
  | c :: cs => (catFiles files c).length + sumCatLens files cs

/-- The invariant asserted of every tracker call the executor issues:
count updates satisfy `passed + failed ≤ total`, progress updates satisfy
`completedFiles ≤ totalFiles`. -/
def GoodCall : TrackerCall → Prop
  | .testCounts p f t => p + f ≤ t
  | .fileProgress _ v _ tf => v ≤ tf
  | _ => True

/-! ## Concrete fixtures for witnesses and counterexamples -/

/-- One discovered file, matched by the `tests/api/` category. -/
def files1 : List String := ["tests/api/a.test.ts"]

/-- A tool whose output is a single skip-marker line. -/
def tool1 : String → ToolOutcome := fun _ => ToolOutcome.ok ("↓ S > t")

/-- A tracker that has not started a run. -/
def freshState : RunnerState := { testRunId := none, startTime := 0 }

/-- An empty persistence store. -/
def emptyDB : DB := { runs := [], cases := [], nextId := 0 }

/-- A tracker with run 0 active, started at time 10. -/
def activeState : RunnerState := { testRunId := some 0, startTime := 10 }

/-- A store holding the single running row that `activeState` points at. -/
def oneRunDB : DB :=
  { runs := [(0,
      { commitHash := some ("HEAD"), branch := "main", status := RunStatus.running,
        startedAt := 10, totalFiles := 1, completedFiles := 0,
        currentFile := none, currentPhase := some Phase.backend,
        totalTests := 0, passedTests := 0, failedTests := 0 })],
    cases := [], nextId := 1 }

/-- A finished result with one failed test case. -/
def sampleResult : TestRunResult :=
  { status := TRStatus.failed, totalTests := 1, passedTests := 0,
    failedTests := 1, duration := 0,
    tests := [{ suite := "S", name := "t", status := TCStatus.failed,
                duration := 5, error := some ("boom") }],
    errorSummary := some ("1 test(s) failed") }

/-! ## Parser lemmas -/

/-- Each line bumps `total` whenever it bumps `passed` or `failed`, so one
line preserves `passed + failed ≤ total`. -/
theorem parseLineStep_inv (st : FileCounts × List TestResult) (line : List Char)
    (h : st.1.passed + st.1.failed ≤ st.1.total) :
    (parseLineStep st line).1.passed + (parseLineStep st line).1.failed
      ≤ (parseLineStep st line).1.total := by
  unfold parseLineStep
  rcases htr : trimChars line with _ | ⟨m, rest⟩
  · exact h
  · dsimp only
    split
    · rcases matchMarkerTail rest with _ | ⟨label, digits⟩ <;> dsimp only <;> omega
    · split
      · rcases matchMarkerTail rest with _ | ⟨label, digits⟩ <;> dsimp only <;> omega
      · split
        · rcases matchSkipTail rest with _ | label <;> dsimp only <;> omega
        · exact h

/-- The counter invariant over a whole line list. -/
theorem parseFold_inv (lines : List (List Char)) :
    ∀ st : FileCounts × List TestResult,
      st.1.passed + st.1.failed ≤ st.1.total →
      (lines.foldl parseLineStep st).1.passed
          + (lines.foldl parseLineStep st).1.failed
        ≤ (lines.foldl parseLineStep st).1.total := by
  induction lines with
  | nil => intro st h; exact h
  | cons l ls ih => intro st h; exact ih _ (parseLineStep_inv st l h)

/-- The counters returned by `parseAndUpdateTestCounts` always satisfy
`passed + failed ≤ total`. -/
theorem parseAndUpdateTestCounts_inv (output : String) (results : List TestResult) :
    (parseAndUpdateTestCounts output results).1.passed
        + (parseAndUpdateTestCounts output results).1.failed
      ≤ (parseAndUpdateTestCounts output results).1.total :=
  parseFold_inv _ _ (by simp)

/-! ## Disjointness of the category path prefixes -/

/-- Two prefixes of the same list are comparable. -/
theorem isPrefixOf_trichotomy (f : List Char) :
    ∀ p q : List Char, p.isPrefixOf f = true → q.isPrefixOf f = true →
      p.isPrefixOf q = true ∨ q.isPrefixOf p = true := by
  induction f with
  | nil =>
    intro p q hp hq
    cases p <;> cases q <;> simp_all [List.isPrefixOf]
  | cons x f ih =>
    intro p q hp hq
    cases p with
    | nil => left; simp [List.isPrefixOf]
    | cons a as =>
      cases q with
      | nil => right; simp [List.isPrefixOf]
      | cons b bs =>
        simp only [List.isPrefixOf, Bool.and_eq_true, beq_iff_eq] at hp hq ⊢
        obtain ⟨rfl, hp⟩ := hp
        obtain ⟨rfl, hq⟩ := hq
        rcases ih as bs hp hq with h | h
        · exact Or.inl ⟨rfl, h⟩
        · exact Or.inr ⟨rfl, h⟩

theorem patDisjoint_of_prefixFree {c d : Category}
    (h1 : c.pattern.data.isPrefixOf d.pattern.data = false)
    (h2 : d.pattern.data.isPrefixOf c.pattern.data = false) :
    patDisjoint c d := by
  rintro f ⟨hp, hq⟩
  unfold strStartsWith at hp hq
  rcases isPrefixOf_trichotomy f.data _ _ hp hq with h | h
  · rw [h1] at h; exact Bool.false_ne_true h
  · rw [h2] at h; exact Bool.false_ne_true h

theorem pairwise_of_check : ∀ cs, pairwisePrefixFree cs = true →
    cs.Pairwise patDisjoint := by
  intro cs
  induction cs with
  | nil => intro _; exact List.Pairwise.nil
  | cons c cs ih =>
    intro h
    simp only [pairwisePrefixFree, Bool.and_eq_true, List.all_eq_true,
      Bool.not_eq_true'] at h
    refine List.Pairwise.cons (fun d hd => ?_) (ih h.2)
    exact patDisjoint_of_prefixFree (h.1 d hd).1 (h.1 d hd).2

/-- The seven fixed category patterns are pairwise prefix-free, hence no
discovered file is counted by two categories. -/
theorem testCategories_disjoint : testCategories.Pairwise patDisjoint :=
  pairwise_of_check _ (by decide)

/-! ## Counting matched files across categories -/

theorem sumBy_lens_eq (files : List String) :
    ∀ cs : List Category,
      sumBy files (fun c => (catFiles files c).length) cs = sumCatLens files cs := by
  intro cs
  induction cs with
  | nil => rfl
  | cons c cs ih =>
    unfold sumBy sumCatLens
    rw [ih]
    split
    · omega
    · rfl

theorem sumCatLens_nil_files : ∀ cs : List Category, sumCatLens [] cs = 0 := by
  intro cs
  induction cs with
  | nil => rfl
  | cons c cs ih => simp [sumCatLens, catFiles, ih]

theorem sumCatLens_cons_file (f : String) (fs : List String) :
    ∀ cs : List Category,
      sumCatLens (f :: fs) cs
        = cs.countP (fun c => strStartsWith f c.pattern) + sumCatLens fs cs := by
  intro cs
  induction cs with
  | nil => rfl
  | cons c cs ih =>
    simp only [sumCatLens, catFiles, List.filter_cons, List.countP_cons, ih]
    split <;> simp_all <;> omega

theorem countP_le_one_of_pairwise :
    ∀ cs : List Category, cs.Pairwise patDisjoint →
      ∀ f : String, cs.countP (fun c => strStartsWith f c.pattern) ≤ 1 := by
  intro cs
  induction cs with
  | nil => intro _ f; simp
  | cons c cs ih =>
    intro hpw f
    rcases List.pairwise_cons.mp hpw with ⟨hhead, htail⟩
    rw [List.countP_cons]
    by_cases hc : strStartsWith f c.pattern = true
    · have hzero : cs.countP (fun c => strStartsWith f c.pattern) = 0 := by
        rw [List.countP_eq_zero]
        intro d hd hdf
        exact hhead d hd f ⟨hc, hdf⟩
      simp [hzero, hc]
    · have hcf : strStartsWith f c.pattern = false := by
        rwa [Bool.not_eq_true] at hc
      have := ih htail f
      simp [hcf]
      omega

/-- Pairwise prefix-free categories never claim a file twice, so the sum of
per-category matched-file counts is bounded by the discovered total. -/
theorem sumCatLens_le (cs : List Category) (hpw : cs.Pairwise patDisjoint) :
    ∀ files : List String, sumCatLens files cs ≤ files.length := by
  intro files
  induction files with
  | nil => rw [sumCatLens_nil_files]; exact Nat.zero_le _
  | cons f fs ih =>
    rw [sumCatLens_cons_file]
    have := countP_le_one_of_pairwise cs hpw f
    simp only [List.length_cons]
    omega

theorem sumLens_le_totalFiles (files : List String) :
    sumBy files (fun c => (catFiles files c).length) testCategories ≤ files.length := by
  rw [sumBy_lens_eq]
  exact sumCatLens_le _ testCategories_disjoint files

/-! ## The category loop as sums over processed categories -/

theorem processCategory_skip (files : List String) (tool : String → ToolOutcome)
    (tf : Nat) (st : ExecState) (c : Category)
    (hc : (catFiles files c).length = 0) :
    processCategory files tool tf st c = st := by
  simp [processCategory, hc]

theorem processCategory_fields (files : List String) (tool : String → ToolOutcome)
    (tf : Nat) (st : ExecState) (c : Category)
    (hc : ¬(catFiles files c).length = 0) :
    (processCategory files tool tf st c).totalPassed
        = st.totalPassed + (catStats tool c).passed ∧
    (processCategory files tool tf st c).totalFailed
        = st.totalFailed + (catStats tool c).failed ∧
    (processCategory files tool tf st c).totalTests
        = st.totalTests + (catStats tool c).total ∧
    (processCategory files tool tf st c).completedFiles
        = st.completedFiles + (catFiles files c).length ∧
    (processCategory files tool tf st c).allTestResults
        = st.allTestResults ++ catResults tool c := by
  simp [processCategory, hc, catStats, catResults]

theorem runCats_fields (files : List String) (tool : String → ToolOutcome)
    (tf : Nat) :
    ∀ (cs : List Category) (st : ExecState),
      (runCats files tool tf cs st).totalPassed
          = st.totalPassed + sumBy files (fun c => (catStats tool c).passed) cs ∧
      (runCats files tool tf cs st).totalFailed
          = st.totalFailed + sumBy files (fun c => (catStats tool c).failed) cs ∧
      (runCats files tool tf cs st).totalTests
          = st.totalTests + sumBy files (fun c => (catStats tool c).total) cs ∧
      (runCats files tool tf cs st).completedFiles
          = st.completedFiles + sumBy files (fun c => (catFiles files c).length) cs ∧
      (runCats files tool tf cs st).allTestResults
          = st.allTestResults ++ resultsBy files tool cs := by
  intro cs
  induction cs with
  | nil => intro st; simp [runCats, sumBy, resultsBy]
  | cons c cs ih =>
    intro st
    by_cases hc : (catFiles files c).length = 0
    · have h := ih st
      simp only [runCats, processCategory_skip files tool tf st c hc]
      simpa [sumBy, resultsBy, hc] using h
    · obtain ⟨hP, hF, hT, hC, hR⟩ := processCategory_fields files tool tf st c hc
      obtain ⟨iP, iF, iT, iC, iR⟩ := ih (processCategory files tool tf st c)
      simp only [runCats, sumBy, resultsBy, if_neg hc]
      refine ⟨?_, ?_, ?_, ?_, ?_⟩
      · rw [iP, hP]; omega
      · rw [iF, hF]; omega
      · rw [iT, hT]; omega
      · rw [iC, hC]; omega
      · rw [iR, hR, List.append_assoc]

/-! ## The update-call invariants -/

theorem processCategory_calls (files : List String) (tool : String → ToolOutcome)
    (tf : Nat) (st : ExecState) (c : Category)
    (hc : ¬(catFiles files c).length = 0) :
    ∃ s : String,
      (processCategory files tool tf st c).calls
        = st.calls ++
          [ TrackerCall.fileProgress c.name st.completedFiles c.phase tf,
            TrackerCall.testCounts (st.totalPassed + (catStats tool c).passed)
              (st.totalFailed + (catStats tool c).failed)
              (st.totalTests + (catStats tool c).total),
            TrackerCall.fileProgress s
              (st.completedFiles + (catFiles files c).length) c.phase tf ] := by
  refine ⟨match tool c.pattern with
          | .ok _ => "Completed " ++ c.name
          | .err _ => "Completed " ++ c.name ++ " (with errors)", ?_⟩
  simp only [processCategory, if_neg hc, catStats]

theorem runCats_calls_good (files : List String) (tool : String → ToolOutcome)
    (tf : Nat) :
    ∀ (cs : List Category) (st : ExecState),
      st.totalPassed + st.totalFailed ≤ st.totalTests →
      st.completedFiles + sumBy files (fun c => (catFiles files c).length) cs ≤ tf →
      (∀ call ∈ st.calls, GoodCall call) →
      ∀ call ∈ (runCats files tool tf cs st).calls, GoodCall call := by
  intro cs
  induction cs with
  | nil => intro st _ _ hcalls; simpa [runCats] using hcalls
  | cons c cs ih =>
    intro st hcnt hfiles hcalls
    by_cases hc : (catFiles files c).length = 0
    · simp only [runCats, processCategory_skip files tool tf st c hc]
      refine ih st hcnt ?_ hcalls
      simp only [sumBy, hc, if_pos rfl] at hfiles
      omega
    · obtain ⟨hP, hF, hT, hC, _⟩ := processCategory_fields files tool tf st c hc
      obtain ⟨s, hceq⟩ := processCategory_calls files tool tf st c hc
      have hparse := parseAndUpdateTestCounts_inv (tool c.pattern).text []
      have hsum : st.completedFiles + ((catFiles files c).length
          + sumBy files (fun c => (catFiles files c).length) cs) ≤ tf := by
        simp only [sumBy, if_neg hc] at hfiles
        exact hfiles
      simp only [runCats]
      refine ih (processCategory files tool tf st c) ?_ ?_ ?_
      · rw [hP, hF, hT]
        have : (catStats tool c).passed + (catStats tool c).failed
            ≤ (catStats tool c).total := hparse
        omega
      · rw [hC]; omega
      · intro call hmem
        rw [hceq] at hmem
        rcases List.mem_append.mp hmem with h | h
        · exact hcalls call h
        · rcases h with _ | ⟨_, (_ | ⟨_, (_ | ⟨_, h⟩)⟩)⟩
          · show st.completedFiles ≤ tf
            omega
          · show st.totalPassed + (catStats tool c).passed
              + (st.totalFailed + (catStats tool c).failed)
              ≤ st.totalTests + (catStats tool c).total
            have : (catStats tool c).passed + (catStats tool c).failed
                ≤ (catStats tool c).total := hparse
            omega
          · show st.completedFiles + (catFiles files c).length ≤ tf
            omega
          · cases h

/-! ## Retry semantics -/

theorem retryGo_spec (apply : DB → DB) (ok : Nat → Bool) :
    ∀ (fuel i : Nat) (db : DB),
      (retryGo apply ok i fuel db).2.attemptsMade ≤ fuel ∧
      (0 < fuel → 0 < (retryGo apply ok i fuel db).2.attemptsMade) ∧
      (retryGo apply ok i fuel db).2.waits
        = (List.range ((retryGo apply ok i fuel db).2.attemptsMade - 1)).map
            (fun n => 1000 * (i + n + 1)) ∧
      (0 < fuel → (∀ j, j < fuel → ok (i + j) = false) →
        (retryGo apply ok i fuel db).2.finalWarning = true) := by
  intro fuel
  induction fuel with
  | zero => intro i db; simp [retryGo]
  | succ f ihf =>
    intro i db
    by_cases hok : ok i = true
    · simp [retryGo, hok]
      exact ⟨0, Nat.succ_pos f, by simpa using hok⟩
    · have hokf : ok i = false := by rwa [Bool.not_eq_true] at hok
      by_cases hf : f = 0
      · subst hf
        simp [retryGo, hokf]
      · obtain ⟨h1, h2, h3, h4⟩ := ihf (i + 1) db
        have hfpos : 0 < f := Nat.pos_of_ne_zero hf
        have hmpos : 0 < (retryGo apply ok (i + 1) f db).2.attemptsMade :=
          h2 hfpos
        refine ⟨?_, ?_, ?_, ?_⟩
        · simp only [retryGo, hokf, Bool.false_eq_true, if_false, if_neg hf]
          omega
        · intro _
          simp only [retryGo, hokf, Bool.false_eq_true, if_false, if_neg hf]
          omega
        · simp only [retryGo, hokf, Bool.false_eq_true, if_false, if_neg hf]
          obtain ⟨m, hm⟩ := Nat.exists_eq_add_of_lt hmpos
          rw [h3, hm]
          simp only [Nat.add_sub_cancel, Nat.zero_add]
          rw [List.range_succ_eq_map, List.map_cons, List.map_map]
          refine congrArg₂ List.cons (by omega) ?_
          refine congrArg (fun g => List.map g (List.range m)) ?_
          funext n
          simp [Function.comp]
          omega
        · intro _ hall
          simp only [retryGo, hokf, Bool.false_eq_true, if_false, if_neg hf]
          refine h4 hfpos (fun j hj => ?_)
          have := hall (j + 1) (by omega)
          simpa [Nat.add_assoc, Nat.add_comm, Nat.add_left_comm] using this

theorem find_map_update (id : Nat) (f : RunRow → RunRow) :
    ∀ l : List (Nat × RunRow),
      (((l.map (fun p => if p.1 = id then (p.1, f p.2) else p)).find?
          (fun p => p.1 = id)).map (fun p => p.2))
        = ((l.find? (fun p => p.1 = id)).map (fun p => p.2)).map f := by
  intro l
  induction l with
  | nil => rfl
  | cons p l ih =>
    by_cases hp : p.1 = id
    · simp only [List.map_cons, if_pos hp]
      rw [List.find?_cons_of_pos _ (by simp [hp]),
        List.find?_cons_of_pos _ (by simp [hp])]
      simp
    · simp only [List.map_cons, if_neg hp]
      rw [List.find?_cons_of_neg _ (by simp [hp]),
        List.find?_cons_of_neg _ (by simp [hp])]
      exact ih

/-- Looking up the updated row sees the update applied. -/
theorem dbFindRun_update (db : DB) (id : Nat) (f : RunRow → RunRow) :
    dbFindRun (dbUpdateRun db id f) id = (dbFindRun db id).map f := by
  unfold dbFindRun dbUpdateRun
  exact find_map_update id f db.runs

/-- Run lookup depends only on the run rows. -/
theorem dbFindRun_eq_of_runs {db1 db2 : DB} (h : db1.runs = db2.runs) (id : Nat) :
    dbFindRun db1 id = dbFindRun db2 id := by
  unfold dbFindRun
  rw [h]

/-- The retry wrapper instantiated at 3 attempts: at most three tries, the
backoff waits are `1000 * n` for each completed failed attempt `n`, and
three straight failures end in the give-up warning. -/
theorem retryOperation_spec (apply : DB → DB) (ok : Nat → Bool) (db : DB) :
    (retryOperation apply ok db).2.attemptsMade ≤ 3 ∧
    (retryOperation apply ok db).2.waits
      = (List.range ((retryOperation apply ok db).2.attemptsMade - 1)).map
          (fun n => 1000 * (n + 1)) ∧
    ((∀ j, j < 3 → ok j = false) →
      (retryOperation apply ok db).2.finalWarning = true) := by
  obtain ⟨h1, _, h3, h4⟩ := retryGo_spec apply ok 3 0 db
  unfold retryOperation
  refine ⟨h1, ?_, fun hall => h4 (by omega) (fun j hj => by simpa using hall j hj)⟩
  simpa using h3

/-- C3: with an active run, `updateFileProgress` and `updateTestCounts`
each make at most 3 persistence attempts, wait `1000 * n` ms after failed
attempt `n` (n = 1, 2), never raise, and log a final warning when all three
attempts fail. -/
theorem updateOps_retry_semantics (st : RunnerState) (db : DB) (ok : Nat → Bool)
    (id : Nat) (cf : String) (comp : Nat) (ph : Phase) (tf : Nat) (p f t : Nat)
    (h : st.testRunId = some id) :
    ((updateFileProgress st db ok cf comp ph tf).2.attemptsMade ≤ 3 ∧
     (updateFileProgress st db ok cf comp ph tf).2.waits
       = (List.range ((updateFileProgress st db ok cf comp ph tf).2.attemptsMade
            - 1)).map (fun n => 1000 * (n + 1)) ∧
     (updateFileProgress st db ok cf comp ph tf).2.raised = false ∧
     ((∀ j, j < 3 → ok j = false) →
       (updateFileProgress st db ok cf comp ph tf).2.finalWarning = true)) ∧
    ((updateTestCounts st db ok p f t).2.attemptsMade ≤ 3 ∧
     (updateTestCounts st db ok p f t).2.waits
       = (List.range ((updateTestCounts st db ok p f t).2.attemptsMade - 1)).map
           (fun n => 1000 * (n + 1)) ∧
     (updateTestCounts st db ok p f t).2.raised = false ∧
     ((∀ j, j < 3 → ok j = false) →
       (updateTestCounts st db ok p f t).2.finalWarning = true)) := by
  simp only [updateFileProgress, updateTestCounts, h, RetryTrace.toOp]
  exact ⟨⟨(retryOperation_spec _ ok db).1, (retryOperation_spec _ ok db).2.1,
          trivial, (retryOperation_spec _ ok db).2.2⟩,
         ⟨(retryOperation_spec _ ok db).1, (retryOperation_spec _ ok db).2.1,
          trivial, (retryOperation_spec _ ok db).2.2⟩⟩

/-- Witness for the C3 theorem at a concrete always-failing store. -/
theorem updateOps_retry_semantics_witness :
    activeState.testRunId = some 0 ∧
    (updateFileProgress activeState oneRunDB (fun _ => false) "X" 1
        Phase.backend 2).2.attemptsMade ≤ 3 :=
  ⟨rfl, (updateOps_retry_semantics activeState oneRunDB (fun _ => false) 0 "X" 1
    Phase.backend 2 0 0 0 rfl).1.1⟩

/-- C5 counterexample: at a concrete `startTestRun` call the inserted row
has `currentPhase` equal to `backend`, not an unset phase as the claim states. -/
theorem startTestRun_currentPhase_set :
    ((startTestRun freshState emptyDB 5 (some ("HEAD")) "main" 3).2.1.runs.map
        (fun p => p.2.currentPhase)) = [some Phase.backend] ∧
    some Phase.backend ≠ (none : Option Phase) := by
  exact ⟨rfl, by simp⟩

/-- C5 (amended): `startTestRun` inserts exactly one new row with status
`running`, `startedAt` the current time, zero test counters and zero
`completedFiles`, `totalFiles` from the argument, `currentFile` unset and
`currentPhase` initialized to `backend`; the new identifier is returned
and becomes the active context of the tracker. -/
theorem startTestRun_spec (st : RunnerState) (db : DB) (now : Nat)
    (commit : Option String) (branch : String) (tf : Nat) :
    (startTestRun st db now commit branch tf).2.2 = db.nextId ∧
    (startTestRun st db now commit branch tf).1.testRunId = some db.nextId ∧
    (startTestRun st db now commit branch tf).1.startTime = now ∧
    (startTestRun st db now commit branch tf).2.1.runs
      = db.runs ++
        [(db.nextId,
          { commitHash := commit, branch := branch, status := RunStatus.running,
            startedAt := now, totalFiles := tf, completedFiles := 0,
            currentFile := none, currentPhase := some Phase.backend,
            totalTests := 0, passedTests := 0, failedTests := 0 })] ∧
    (startTestRun st db now commit branch tf).2.1.cases = db.cases ∧
    (startTestRun st db now commit branch tf).2.1.nextId = db.nextId + 1 :=
  ⟨rfl, rfl, rfl, rfl, rfl, rfl⟩

/-- C9: calling `updateFileProgress` or `updateTestCounts` with no active
run performs no write (the store is returned unchanged), emits the warning,
makes no attempts, and returns normally. -/
theorem updateOps_noop_without_run (st : RunnerState) (db : DB) (ok : Nat → Bool)
    (cf : String) (comp : Nat) (ph : Phase) (tf : Nat) (p f t : Nat)
    (h : st.testRunId = none) :
    updateFileProgress st db ok cf comp ph tf = (db, noRunTrace) ∧
    updateTestCounts st db ok p f t = (db, noRunTrace) ∧
    noRunTrace.warnedNoRun = true ∧
    noRunTrace.attemptsMade = 0 ∧
    noRunTrace.raised = false := by
  simp [updateFileProgress, updateTestCounts, h, noRunTrace]

/-- Witness for the C9 theorem on a fresh tracker. -/
theorem updateOps_noop_without_run_witness :
    freshState.testRunId = none ∧
    updateFileProgress freshState emptyDB (fun _ => true) "X" 1 Phase.backend 2
      = (emptyDB, noRunTrace) :=
  ⟨rfl, (updateOps_noop_without_run freshState emptyDB (fun _ => true) "X" 1
    Phase.backend 2 0 0 0 rfl).1⟩

/-- C7 counterexample: with an active run, a successful terminal update
followed by a failing bulk insert is a persistence failure that is logged
and not raised — yet the run row carries a terminal status afterwards,
refuting the claim that a persistence failure leaves the run without a
terminal write. -/
theorem completeTestRun_insert_failure_keeps_terminal_write :
    (completeTestRun activeState oneRunDB 50 sampleResult true false).2.2.loggedError
        = true ∧
    (completeTestRun activeState oneRunDB 50 sampleResult true false).2.2.raised
        = false ∧
    ((dbFindRun (completeTestRun activeState oneRunDB 50 sampleResult true
        false).2.1 0).map (fun row => row.status)) = some RunStatus.failed ∧
    some RunStatus.failed ≠ some RunStatus.running := by
  refine ⟨rfl, rfl, by decide, by simp⟩

/-- C7 (amended): with an active run, `completeTestRun` issues one terminal
update writing status, counters, duration, `completedAt` and
`errorSummary`; the test-case rows are bulk-inserted exactly when the
update succeeded and `result.tests` is non-empty; any persistence failure
is logged, never retried and never raised; a failed terminal update leaves
the store untouched (no terminal write), while a failed bulk insert leaves
the terminal update in place with no test cases inserted. -/
theorem completeTestRun_spec (st : RunnerState) (db : DB) (now : Nat)
    (result : TestRunResult) (updateOk insertOk : Bool) (id : Nat)
    (h : st.testRunId = some id) :
    (completeTestRun st db now result updateOk insertOk).1 = st ∧
    (completeTestRun st db now result updateOk insertOk).2.2.raised = false ∧
    (updateOk = false →
      (completeTestRun st db now result updateOk insertOk).2.1 = db ∧
      (completeTestRun st db now result updateOk insertOk).2.2.loggedError = true ∧
      (completeTestRun st db now result updateOk insertOk).2.2.updated = false) ∧
    (updateOk = true →
      (completeTestRun st db now result updateOk insertOk).2.2.updated = true ∧
      (completeTestRun st db now result updateOk insertOk).2.1.runs
        = (dbUpdateRun db id (terminalUpdate result (now - st.startTime) now)).runs ∧
      (completeTestRun st db now result updateOk insertOk).2.1.cases
        = db.cases ++ (if insertOk = true ∧ result.tests ≠ [] then
            caseRows id result.tests else []) ∧
      (insertOk = false → result.tests ≠ [] →
        (completeTestRun st db now result updateOk insertOk).2.2.loggedError
          = true)) := by
  simp only [completeTestRun, h]
  cases updateOk with
  | false =>
    simp
  | true =>
    cases insertOk with
    | false =>
      by_cases hne : result.tests = []
      · simp [hne, dbUpdateRun]
      · have hlen : 0 < result.tests.length := List.length_pos.mpr hne
        simp [hne, hlen, dbUpdateRun]
    | true =>
      by_cases hne : result.tests = []
      · simp [hne, dbUpdateRun]
      · have hlen : 0 < result.tests.length := List.length_pos.mpr hne
        simp [hne, hlen, dbUpdateRun]

/-- Witness for the C7 theorem: a failing terminal update on a concrete
store changes nothing, is logged, and does not raise. -/
theorem completeTestRun_spec_witness :
    activeState.testRunId = some 0 ∧
    ((completeTestRun activeState oneRunDB 50 sampleResult false false).2.1
        = oneRunDB ∧
      (completeTestRun activeState oneRunDB 50 sampleResult false
          false).2.2.loggedError = true ∧
      (completeTestRun activeState oneRunDB 50 sampleResult false
          false).2.2.updated = false) :=
  ⟨rfl, (completeTestRun_spec activeState oneRunDB 50 sampleResult false false 0
    rfl).2.2.1 rfl⟩

/-- C10: `completeTestRun` neither clears the active run id nor checks the
status of the run first, so a second call re-issues the terminal update over the
first terminal record and bulk-inserts every test-case row again,
duplicating them. -/
theorem completeTestRun_double_finalize (st : RunnerState) (db : DB)
    (now1 now2 : Nat) (r : TestRunResult) (id : Nat)
    (h : st.testRunId = some id) (hne : r.tests ≠ []) :
    (completeTestRun st db now1 r true true).1 = st ∧
    (completeTestRun (completeTestRun st db now1 r true true).1
        (completeTestRun st db now1 r true true).2.1 now2 r true
        true).2.2.updated = true ∧
    (completeTestRun (completeTestRun st db now1 r true true).1
        (completeTestRun st db now1 r true true).2.1 now2 r true true).2.1.cases
      = db.cases ++ caseRows id r.tests ++ caseRows id r.tests ∧
    dbFindRun (completeTestRun (completeTestRun st db now1 r true true).1
        (completeTestRun st db now1 r true true).2.1 now2 r true true).2.1 id
      = (dbFindRun db id).map
          (fun row => terminalUpdate r (now2 - st.startTime) now2
            (terminalUpdate r (now1 - st.startTime) now1 row)) := by
  obtain ⟨e1, _, _, h1⟩ := completeTestRun_spec st db now1 r true true id h
  obtain ⟨u1, hruns1, hcases1, _⟩ := h1 rfl
  have h2 := completeTestRun_spec (completeTestRun st db now1 r true true).1
    (completeTestRun st db now1 r true true).2.1 now2 r true true id
    (by rw [e1]; exact h)
  obtain ⟨_, _, _, h2'⟩ := h2
  obtain ⟨u2, hruns2, hcases2, _⟩ := h2' rfl
  refine ⟨e1, u2, ?_, ?_⟩
  · rw [hcases2, hcases1]
    simp [hne]
  · have e2 : (completeTestRun st db now1 r true true).1.startTime
        = st.startTime := by rw [e1]
    rw [dbFindRun_eq_of_runs hruns2, dbFindRun_update, e2,
      dbFindRun_eq_of_runs hruns1, dbFindRun_update, Option.map_map]
    rfl

/-- Witness for the C10 theorem at a concrete double finalize. -/
theorem completeTestRun_double_finalize_witness :
    activeState.testRunId = some 0 ∧ sampleResult.tests ≠ [] ∧
    (completeTestRun (completeTestRun activeState oneRunDB 20 sampleResult true
        true).1 (completeTestRun activeState oneRunDB 20 sampleResult true
        true).2.1 30 sampleResult true true).2.1.cases
      = oneRunDB.cases ++ caseRows 0 sampleResult.tests
          ++ caseRows 0 sampleResult.tests :=
  ⟨rfl, by decide,
    (completeTestRun_double_finalize activeState oneRunDB 20 30 sampleResult 0
      rfl (by decide)).2.2.1⟩

/-- C8: when discovery raises, `runTestSuite` hands `completeTestRun` a
failed result with all-zero counts and an `errorSummary` describing the
exception, then re-raises the original error. -/
theorem runTestSuite_exception_path (msg : String) (tool : String → ToolOutcome) :
    (runTestSuite (Except.error msg) tool).2 = some msg ∧
    (runTestSuite (Except.error msg) tool).1
      = [TrackerCall.complete
          { status := TRStatus.failed, totalTests := 0, passedTests := 0,
            failedTests := 0, duration := 0, tests := [],
            errorSummary := some ("Test execution failed: " ++ msg) }] :=
  ⟨rfl, rfl⟩

/-- C2: every tracker call issued by `runTestSuite` satisfies the
invariants `passed + failed ≤ total` (count updates) and
`completedFiles ≤ totalFiles` (progress updates), for every discovered file
set and every tool output. -/
theorem runTestSuite_update_invariants (discovery : Except String (List String))
    (tool : String → ToolOutcome) :
    ∀ call ∈ (runTestSuite discovery tool).1, GoodCall call := by
  cases discovery with
  | error msg =>
    intro call hmem
    simp only [runTestSuite, List.mem_singleton] at hmem
    subst hmem
    trivial
  | ok files =>
    intro call hmem
    simp only [runTestSuite, execFinalState] at hmem
    rcases List.mem_append.mp hmem with hmem | hmem
    · refine runCats_calls_good files tool files.length testCategories _ ?_ ?_ ?_
        call hmem

      · exact Nat.le_refl 0
      · simpa using sumLens_le_totalFiles files
      · intro call2 hc
        simp only [List.mem_singleton] at hc
        subst hc
        trivial
    · simp only [List.mem_singleton] at hmem
      subst hmem
      trivial

/-- Witness for the C2 theorem: the concrete count update issued for the
single api category. -/
theorem runTestSuite_update_invariants_witness :
    TrackerCall.testCounts 0 0 1 ∈ (runTestSuite (Except.ok files1) tool1).1 ∧
    GoodCall (TrackerCall.testCounts 0 0 1) :=
  ⟨by decide,
   runTestSuite_update_invariants (Except.ok files1) tool1 _ (by decide)⟩

/-- C1 counterexample: one api file whose tool output is a single
skip-marker line.  The `failedTests` of the final result is 0 while
Σ (categoryTotal − categoryPassed) is 1, so the failed-count
formula of the claim fails in the presence of skip lines. -/
theorem runTestSuite_failed_not_total_minus_passed :
    (runTestSuite (Except.ok files1) tool1).1.getLast?
      = some (TrackerCall.complete (finalResultOf files1 tool1)) ∧
    ¬((finalResultOf files1 tool1).failedTests
        = sumBy files1
            (fun c => (catStats tool1 c).total - (catStats tool1 c).passed)
            testCategories) :=
  ⟨by decide, by decide⟩

/-- C1 (amended): the final result handed to `completeTestRun` has
`totalTests`, `passedTests` and `failedTests` equal to the sums, over the
processed categories, of the per-category totals, passed counts and failed
counts respectively (skip lines count toward the total only; the failed
sum is not in general Σ (total − passed)). -/
theorem runTestSuite_totals (files : List String) (tool : String → ToolOutcome) :
    (runTestSuite (Except.ok files) tool).1.getLast?
      = some (TrackerCall.complete (finalResultOf files tool)) ∧
    (finalResultOf files tool).totalTests
      = sumBy files (fun c => (catStats tool c).total) testCategories ∧
    (finalResultOf files tool).passedTests
      = sumBy files (fun c => (catStats tool c).passed) testCategories ∧
    (finalResultOf files tool).failedTests
      = sumBy files (fun c => (catStats tool c).failed) testCategories := by
  obtain ⟨hP, hF, hT, _, _⟩ := runCats_fields files tool files.length testCategories
    { completedFiles := 0, totalPassed := 0, totalFailed := 0, totalTests := 0,
      allTestResults := [],
      calls := [TrackerCall.start ("HEAD") ("main") files.length] }
  refine ⟨?_, ?_, ?_, ?_⟩
  · simp only [runTestSuite, finalResultOf]
    exact List.getLast?_concat _
  · simpa [finalResultOf, finalResult, execFinalState] using hT
  · simpa [finalResultOf, finalResult, execFinalState] using hP
  · simpa [finalResultOf, finalResult, execFinalState] using hF

/-- C6: the final result handed to `completeTestRun` has status `failed`
exactly when the accumulated failed count is nonzero, carries the
accumulated totals and the full list of parsed test cases, and has
`errorSummary = "<failedTests> test(s) failed"` exactly when
`failedTests > 0`, and no summary otherwise. -/
theorem runTestSuite_final_result_shape (files : List String)
    (tool : String → ToolOutcome) :
    (runTestSuite (Except.ok files) tool).1.getLast?
      = some (TrackerCall.complete (finalResultOf files tool)) ∧
    ((finalResultOf files tool).status = TRStatus.failed
        ↔ (finalResultOf files tool).failedTests ≠ 0) ∧
    (finalResultOf files tool).tests = resultsBy files tool testCategories ∧
    (finalResultOf files tool).errorSummary
      = (if (finalResultOf files tool).failedTests > 0
          then some (toString (finalResultOf files tool).failedTests
            ++ " test(s) failed")
          else none) := by
  obtain ⟨_, _, _, _, hR⟩ := runCats_fields files tool files.length testCategories
    { completedFiles := 0, totalPassed := 0, totalFailed := 0, totalTests := 0,
      allTestResults := [],
      calls := [TrackerCall.start ("HEAD") ("main") files.length] }
  refine ⟨?_, ?_, ?_, ?_⟩
  · simp only [runTestSuite, finalResultOf]
    exact List.getLast?_concat _
  · by_cases h : (execFinalState files tool).totalFailed = 0 <;>
      simp [finalResultOf, finalResult, h]
  · simpa [finalResultOf, finalResult, execFinalState] using hR
  · by_cases h : (execFinalState files tool).totalFailed = 0 <;>
      simp [finalResultOf, finalResult, h, Nat.pos_of_ne_zero]

/-- C4 counterexample: `✓ Foo 12x` starts with the pass marker but has a
malformed duration.  It is counted as passed and toward the total, yet no
test case at all is recorded — in particular none with suite `unknown`. -/
theorem malformed_marker_line_not_recorded :
    parseAndUpdateTestCounts ("✓ Foo 12x") []
      = ({ passed := 1, failed := 0, total := 1 }, []) := by
  decide

/-- C4 (amended): a line starting with a pass, fail or skip marker whose
tail does not match the regex of that marker is still counted toward the
pass/fail/total counters using the marker alone, but no test case is
recorded: the results list is returned unchanged. -/
theorem marker_line_without_match_counts_only
    (st : FileCounts × List TestResult) (line : List Char) :
    (∀ rest, trimChars line = '✓' :: rest → matchMarkerTail rest = none →
      parseLineStep st line
        = ({ st.1 with passed := st.1.passed + 1, total := st.1.total + 1 },
           st.2)) ∧
    (∀ rest, trimChars line = '✗' :: rest → matchMarkerTail rest = none →
      parseLineStep st line
        = ({ st.1 with failed := st.1.failed + 1, total := st.1.total + 1 },
           st.2)) ∧
    (∀ rest, trimChars line = '↓' :: rest → matchSkipTail rest = none →
      parseLineStep st line
        = ({ st.1 with total := st.1.total + 1 }, st.2)) := by
  refine ⟨?_, ?_, ?_⟩ <;> intro rest htr hm
  · simp [parseLineStep, htr, hm]
  · simp [parseLineStep, htr, hm, (by decide : ¬('✗' = '✓'))]
  · simp [parseLineStep, htr, hm, (by decide : ¬('↓' = '✓')),
      (by decide : ¬('↓' = '✗'))]

/-- Witness for the C4 amended theorem at the malformed pass line. -/
theorem marker_line_without_match_counts_only_witness :
    trimChars ("✓ Foo 12x".data) = '✓' :: " Foo 12x".data ∧
    matchMarkerTail (" Foo 12x".data) = none ∧
    parseLineStep ({ passed := 0, failed := 0, total := 0 }, []) "✓ Foo 12x".data
      = ({ passed := 1, failed := 0, total := 1 }, []) :=
  ⟨by decide, by decide,
   by
     exact (marker_line_without_match_counts_only
         ({ passed := 0, failed := 0, total := 0 }, []) ("✓ Foo 12x".data)).1
         (" Foo 12x".data) (by decide) (by decide)⟩

end TestFramework
